import Mathlib

/-!
A shallow embedding of the Scheme interpreter in `src/src/scheme/scheme.py`
(tokenizer, parser, frame model, evaluator, application protocol and the
native-procedure table), together with theorems settling the specification
claims about it.

Modelling conventions:
* Host (Python) runtime values become the inductive `Value`.  The host classes
  `Symbol` and `Closure` become the constructors `Value.sym` and
  `Value.closure`; native procedures (the lambdas of
  `BUILTIN_FUNCTIONS_BY_NAME`) become `Value.native` tags interpreted by
  `applyNative`.
* Host floats are modelled as exact rationals (`Rat`).  Every float literal
  appearing in the claims (`0.0`, `2.0`) is exactly representable in binary
  floating point, so on those inputs the model agrees with the host.
* Mutable `Frame` objects become indices into a `State` (a list of
  `FrameData`); evaluation threads the `State` explicitly.  Frames are only
  ever appended, so a frame's parent index is always smaller than its own
  index; recursions over parent chains are guarded by that inequality.
* Host exceptions become the `Except Err` monad.  The distinct constructors
  of `Err` record which host exception was raised (`SchemeError` for
  `unbound`/`notCallable`/`lexErr`/`parseErr`, and the host's own
  `IndexError`/`TypeError`/`ZeroDivisionError` otherwise).  A failed
  evaluation discards the threaded state, while the host keeps mutations
  performed before the exception; no claim observes state after an error.
* The evaluator's unbounded host recursion is modelled with an explicit fuel
  parameter; `Err.outOfFuel` is an artifact of the model, never of the code.
-/

namespace SillyScheme

/-- Runtime values: the single closed variant type of the interpreter.
`closure forms params frame` keeps the raw `value[1]` of a `lambda`
(resp. `signature[1:]` of a `define`) as its `params` field, exactly as the
source stores it unchecked. -/
inductive Value where
  | int : Int → Value
  | float : Rat → Value
  | bool : Bool → Value
  | str : String → Value
  | sym : String → Value
  | list : List Value → Value
  | closure : List Value → Value → Nat → Value
  | native : Nat → Value

/-- Tags for the native procedures of `BUILTIN_FUNCTIONS_BY_NAME`, numbered
in table order: + - * mod / > >= < <= = eq? null? car cdr cons not length
map filter apply eval. -/
def nAdd : Nat := 0
def nSub : Nat := 1
def nMul : Nat := 2
def nMod : Nat := 3
def nDiv : Nat := 4
def nGt : Nat := 5
def nGe : Nat := 6
def nLt : Nat := 7
def nLe : Nat := 8
def nNumEq : Nat := 9
def nIdentEq : Nat := 10
def nIsNull : Nat := 11
def nCar : Nat := 12
def nCdr : Nat := 13
def nCons : Nat := 14
def nNot : Nat := 15
def nLen : Nat := 16
def nMap : Nat := 17
def nFilter : Nat := 18
def nApply : Nat := 19
def nEval : Nat := 20

/-- Errors.  `unbound`, `notCallable`, `lexErr` and `parseErr` are the
source's `SchemeError` with its several payloads; `indexErr`, `typeErr` and
`zeroDivision` are the host's own exceptions leaking through; `outOfFuel` is
a model artifact for the host's unbounded recursion. -/
inductive Err where
  | unbound : String → Err
  | notCallable : Value → Err
  | lexErr : Char → Err
  | parseErr : String → Err
  | indexErr : Err
  | typeErr : Err
  | zeroDivision : Err
  | outOfFuel : Err

/-- One `Frame` object: its binding dictionary and optional parent frame. -/
structure FrameData where
  bindings : List (Value × Value)
  parent : Option Nat

/-- The heap of frames; a frame is identified by its index. -/
structure State where
  frames : List FrameData

/-- Host truthiness (`bool(x)`), as used by `if`/`cond`/`and`/`or`, by
`not`, by `filter` and by `Frame.set`'s lookup test. -/
def truthy : Value → Bool
  | .bool b => b
  | .int n => n != 0
  | .float q => q != 0
  | .str s => s != ""
  | .list l => !l.isEmpty
  | _ => true

/-- Numeric view of a value (`bool` is an integer subtype on the host). -/
def toRatNum : Value → Option Rat
  | .bool b => some (if b then 1 else 0)
  | .int n => some (n : Rat)
  | .float q => some q
  | _ => none

/-- Integer view of a value (`bool` coerces to 0/1 on the host). -/
def intVal : Value → Option Int
  | .bool b => some (if b then 1 else 0)
  | .int n => some n
  | _ => none

mutual

/-- Host `==` between runtime values.  Symbols compare by name, sequences
elementwise, booleans/integers/floats numerically (`True == 1` holds on the
host).  Closures compare by identity on the host; the model compares them
structurally, which agrees whenever the compared objects are the same
object and differs only for distinct structurally-equal closures (never
produced in the claims). -/
def pyEq : Value → Value → Bool
  | .sym a, .sym b => a == b
  | .str a, .str b => a == b
  | .list xs, .list ys => pyEqList xs ys
  | .closure fa pa ga, .closure fb pb gb => pyEqList fa fb && pyEq pa pb && ga == gb
  | .native a, .native b => a == b
  | a, b =>
    match toRatNum a, toRatNum b with
    | some x, some y => x == y
    | _, _ => false

def pyEqList : List Value → List Value → Bool
  | [], [] => true
  | a :: as2, b :: bs2 => pyEq a b && pyEqList as2 bs2
  | _, _ => false

end

/-- Host `type(x) is type(y)`: same runtime variant.  (All natives are
modelled as one variant; the two native procedures whose host types differ,
`len` and the lambdas, are still compared correctly because `pyEq` on
natives is tag equality.) -/
def sameType : Value → Value → Bool
  | .bool _, .bool _ => true
  | .int _, .int _ => true
  | .float _, .float _ => true
  | .str _, .str _ => true
  | .sym _, .sym _ => true
  | .list _, .list _ => true
  | .closure _ _ _, .closure _ _ _ => true
  | .native _, .native _ => true
  | _, _ => false

/-- Dictionary lookup (host dicts unify `==`-equal keys). -/
def assocFind : List (Value × Value) → Value → Option Value
  | [], _ => none
  | (k2, v2) :: rest, k => if pyEq k k2 then some v2 else assocFind rest k

/-- Dictionary store `d[k] = v`: overwrite the `==`-equal key if present
(keeping the originally inserted key object), else append. -/
def assocUpdate : List (Value × Value) → Value → Value → List (Value × Value)
  | [], k, v => [(k, v)]
  | (k2, v2) :: rest, k, v =>
    if pyEq k k2 then (k2, v) :: rest else (k2, v2) :: assocUpdate rest k v

/-- Host list indexing `l[i]` (raises `IndexError` out of range). -/
def pyListGet (l : List Value) (i : Nat) : Except Err Value :=
  match l[i]? with
  | some v => .ok v
  | none => .error .indexErr

/-- Host subscript `x[i]` on an arbitrary value: sequences index into
elements, strings into one-character strings, anything else raises
`TypeError`. -/
def pyIndex : Value → Nat → Except Err Value
  | .list l, i => pyListGet l i
  | .str s, i =>
    match s.data[i]? with
    | some c => .ok (.str (String.mk [c]))
    | none => .error .indexErr
  | _, _ => .error .typeErr

/-- Host slice `x[1:]`: total on sequences and strings (empty input yields
an empty result, never an error), `TypeError` otherwise. -/
def pySlice1 : Value → Except Err Value
  | .list l => .ok (.list (l.drop 1))
  | .str s => .ok (.str (String.mk (s.data.drop 1)))
  | _ => .error .typeErr

/-- Host iteration `for x in v`: sequences yield elements, strings yield
one-character strings, anything else raises `TypeError`. -/
def pyIterate : Value → Except Err (List Value)
  | .list l => .ok l
  | .str s => .ok (s.data.map (fun c => Value.str (String.mk [c])))
  | _ => .error .typeErr

/-- `Frame.lookup`: search this frame's dictionary, then the parent chain;
`none` when unbound anywhere (the host returns `None`).  The recursion is
guarded by `parent < frame`, which holds for every interpreter-built state
because frames are appended after their parents; the structural fuel
`f + 1` therefore never runs out (parent indices strictly decrease). -/
def lookupAux (s : State) : Nat → Nat → Value → Option Value
  | 0, _, _ => none
  | n + 1, f, key =>
    match s.frames[f]? with
    | none => none
    | some fd =>
      match assocFind fd.bindings key with
      | some v => some v
      | none =>
        match fd.parent with
        | some p => if p < f then lookupAux s n p key else none
        | none => none

def lookupF (s : State) (f : Nat) (key : Value) : Option Value :=
  lookupAux s (f + 1) f key

/-- `Frame.bind`: store into frame `f`'s dictionary (no-op on an invalid
frame index, which the interpreter never produces). -/
def bindAt (s : State) (f : Nat) (k v : Value) : State :=
  match s.frames[f]? with
  | none => s
  | some fd => ⟨s.frames.set f ⟨assocUpdate fd.bindings k v, fd.parent⟩⟩

/-- Allocate a new child frame; its index is the previous length of the
heap. -/
def pushFrame (s : State) (b : List (Value × Value)) (parent : Nat) : State :=
  ⟨s.frames ++ [⟨b, some parent⟩]⟩

/-- Index of the nearest frame at-or-above `f` whose dictionary binds
`key` (an analysis helper; not part of the source). -/
def findFrameAux (s : State) : Nat → Nat → Value → Option Nat
  | 0, _, _ => none
  | n + 1, f, key =>
    match s.frames[f]? with
    | none => none
    | some fd =>
      if (assocFind fd.bindings key).isSome then some f
      else
        match fd.parent with
        | some p => if p < f then findFrameAux s n p key else none
        | none => none

def findFrame (s : State) (f : Nat) (key : Value) : Option Nat :=
  findFrameAux s (f + 1) f key

/-- The public method `Frame.set`: overwrite in this frame if the key is
bound here; otherwise, if the parent exists and `parent.lookup(key)` is
truthy (note: the truthiness of the looked-up *value*, with `None` for
unbound being falsy), recurse into the parent; otherwise bind locally.
Fuel as in `lookupAux`. -/
def frameSetAux (s : State) : Nat → Nat → Value → Value → State
  | 0, _, _, _ => s
  | n + 1, f, key, v =>
    match s.frames[f]? with
    | none => s
    | some fd =>
      if (assocFind fd.bindings key).isSome then bindAt s f key v
      else
        match fd.parent with
        | some p =>
          if p < f then
            match lookupF s p key with
            | some w => if truthy w then frameSetAux s n p key v else bindAt s f key v
            | none => bindAt s f key v
          else bindAt s f key v
        | none => bindAt s f key v

def frameSetM (s : State) (f : Nat) (key v : Value) : State :=
  frameSetAux s (f + 1) f key v

/-- Host `x + y` as used by the `+` native: integer (and bool-as-integer)
addition stays integral, any float operand makes a float, strings and
sequences concatenate; other combinations raise `TypeError`.  (The host's
further overloads, e.g. sequence repetition, involve no `+` and are not
reachable here.) -/
def pyAdd : Value → Value → Except Err Value
  | .str a, .str b => .ok (.str (a ++ b))
  | .list a, .list b => .ok (.list (a ++ b))
  | a, b =>
    match intVal a, intVal b with
    | some x, some y => .ok (.int (x + y))
    | _, _ =>
      match toRatNum a, toRatNum b with
      | some x, some y => .ok (.float (x + y))
      | _, _ => .error .typeErr

/-- Host `x - y` (`-` native): numeric only. -/
def pySub (a b : Value) : Except Err Value :=
  match intVal a, intVal b with
  | some x, some y => .ok (.int (x - y))
  | _, _ =>
    match toRatNum a, toRatNum b with
    | some x, some y => .ok (.float (x - y))
    | _, _ => .error .typeErr

/-- Host `x * y` (`*` native): numeric only (the host's sequence-repetition
overload is not modelled; no claim touches it). -/
def pyMul (a b : Value) : Except Err Value :=
  match intVal a, intVal b with
  | some x, some y => .ok (.int (x * y))
  | _, _ =>
    match toRatNum a, toRatNum b with
    | some x, some y => .ok (.float (x * y))
    | _, _ => .error .typeErr

/-- Host `x % y` (`mod` native): floor-convention remainder; division by
zero raises. -/
def pyMod (a b : Value) : Except Err Value :=
  match intVal a, intVal b with
  | some x, some y => if y = 0 then .error .zeroDivision else .ok (.int (Int.fmod x y))
  | _, _ =>
    match toRatNum a, toRatNum b with
    | some x, some y =>
      if y = 0 then .error .zeroDivision
      else .ok (.float (x - y * ((Rat.floor (x / y) : Int) : Rat)))
    | _, _ => .error .typeErr

/-- Host `x / y` (`/` native): true division, always a float; division by
zero raises. -/
def pyDiv (a b : Value) : Except Err Value :=
  match toRatNum a, toRatNum b with
  | some x, some y => if y = 0 then .error .zeroDivision else .ok (.float (x / y))
  | _, _ => .error .typeErr

/-- Host `x <= y`: numeric comparison (bools as integers) or string
comparison by code point; other combinations raise `TypeError`. -/
def pyLe (a b : Value) : Except Err Value :=
  match toRatNum a, toRatNum b with
  | some x, some y => .ok (.bool (decide (x ≤ y)))
  | _, _ =>
    match a, b with
    | .str x, .str y => .ok (.bool (decide (x ≤ y)))
    | _, _ => .error .typeErr

/-- Host `x < y`. -/
def pyLtCmp (a b : Value) : Except Err Value :=
  match toRatNum a, toRatNum b with
  | some x, some y => .ok (.bool (decide (x < y)))
  | _, _ =>
    match a, b with
    | .str x, .str y => .ok (.bool (decide (x < y)))
    | _, _ => .error .typeErr

/-- Host `x > y`. -/
def pyGtCmp (a b : Value) : Except Err Value := pyLtCmp b a

/-- Host `x >= y`. -/
def pyGeCmp (a b : Value) : Except Err Value := pyLe b a

/-- Host `len(x)`. -/
def pyLen : Value → Except Err Value
  | .list l => .ok (.int l.length)
  | .str s => .ok (.int s.length)
  | _ => .error .typeErr

/-- Bindings of a closure activation: `{p[0]: p[1] for p in zip(params,
args)}` — pairwise zip (truncating to the shorter list), later duplicate
parameters overwriting earlier ones. -/
def mkBindings (params args : List Value) : List (Value × Value) :=
  (params.zip args).foldl (fun acc pa => assocUpdate acc pa.1 pa.2) []

mutual

/-- `evaluate(value, frame)`: symbols resolve through the frame chain
(raising on `None`), the empty sequence and non-sequences self-evaluate,
special forms dispatch on the head by host `==` in source order, and
anything else is procedure application (head, then arguments, evaluated
left to right). -/
def evaluate : Nat → Value → Nat → State → Except Err (Value × State)
  | 0, _, _, _ => .error .outOfFuel
  | _ + 1, .sym name, f, s =>
    match lookupF s f (.sym name) with
    | none => .error (.unbound name)
    | some v => .ok (v, s)
  | _ + 1, .list [], _, s => .ok (.list [], s)
  | n + 1, .list (h :: t), f, s =>
    match h with
    | .sym "quote" => do
      let x ← pyListGet t 0
      .ok (x, s)
    | .sym "progn" => evalSeqAcc n (.list []) t f s
    | .sym "if" => do
      let tst ← pyListGet t 0
      let (tv, s1) ← evaluate n tst f s
      if truthy tv then do
        let a ← pyListGet t 1
        evaluate n a f s1
      else do
        let b ← pyListGet t 2
        evaluate n b f s1
    | .sym "cond" => evalCond n t f s
    | .sym "set" => do
      let e ← pyListGet t 1
      let (v, s1) ← evaluate n e f s
      let key ← pyListGet t 0
      .ok (.list [], bindAt s1 f key v)
    | .sym "define" => do
      let signature ← pyListGet t 0
      let params ← pySlice1 signature
      let key ← pyIndex signature 0
      .ok (.list [], bindAt s f key (.closure (t.drop 1) params f))
    | .sym "lambda" => do
      let params ← pyListGet t 0
      .ok (.closure (t.drop 1) params f, s)
    | .sym "let" => do
      let bs ← pyListGet t 0
      let pairs ← pyIterate bs
      let (binds, s1) ← evalLetBinds n pairs f s []
      let body ← pyListGet t 1
      evaluate n body s1.frames.length (pushFrame s1 binds f)
    | .sym "and" => evalAnd n t f s
    | .sym "or" => evalOr n t f s
    | _ => do
      let (fn, s1) ← evaluate n h f s
      let (args, s2) ← evalList n t f s1
      applyProc n fn args s2
  | _ + 1, v, _, s => .ok (v, s)
termination_by structural n _ _ _ => n

/-- The `progn`/closure-body loop: `result = []`, then `result =
evaluate(form, frame)` for each form in order; returns the final
`result`. -/
def evalSeqAcc : Nat → Value → List Value → Nat → State → Except Err (Value × State)
  | 0, _, _, _, _ => .error .outOfFuel
  | _ + 1, acc, [], _, s => .ok (acc, s)
  | n + 1, _, x :: xs, f, s => do
    let (v, s1) ← evaluate n x f s
    evalSeqAcc n v xs f s1
termination_by structural n _ _ _ _ => n

/-- The `cond` loop: evaluate each branch's test in order; on the first
truthy test evaluate and return the paired expression; otherwise return the
empty list. -/
def evalCond : Nat → List Value → Nat → State → Except Err (Value × State)
  | 0, _, _, _ => .error .outOfFuel
  | _ + 1, [], _, s => .ok (.list [], s)
  | n + 1, br :: rest, f, s => do
    let tst ← pyIndex br 0
    let (tv, s1) ← evaluate n tst f s
    if truthy tv then do
      let e ← pyIndex br 1
      evaluate n e f s1
    else evalCond n rest f s1
termination_by structural n _ _ _ => n

/-- The `and` loop: `False` on the first falsy operand, else `True`. -/
def evalAnd : Nat → List Value → Nat → State → Except Err (Value × State)
  | 0, _, _, _ => .error .outOfFuel
  | _ + 1, [], _, s => .ok (.bool true, s)
  | n + 1, x :: xs, f, s => do
    let (v, s1) ← evaluate n x f s
    if truthy v then evalAnd n xs f s1 else .ok (.bool false, s1)
termination_by structural n _ _ _ => n

/-- The `or` loop: `True` on the first truthy operand, else `False`. -/
def evalOr : Nat → List Value → Nat → State → Except Err (Value × State)
  | 0, _, _, _ => .error .outOfFuel
  | _ + 1, [], _, s => .ok (.bool false, s)
  | n + 1, x :: xs, f, s => do
    let (v, s1) ← evaluate n x f s
    if truthy v then .ok (.bool true, s1) else evalOr n xs f s1
termination_by structural n _ _ _ => n

/-- The `let` binding comprehension `{p[0]: evaluate(p[1], frame) for p in
value[1]}`, evaluated in the outer frame, duplicates overwriting. -/
def evalLetBinds : Nat → List Value → Nat → State → List (Value × Value) →
    Except Err (List (Value × Value) × State)
  | 0, _, _, _, _ => .error .outOfFuel
  | _ + 1, [], _, s, acc => .ok (acc, s)
  | n + 1, p :: ps, f, s, acc => do
    let k ← pyIndex p 0
    let ve ← pyIndex p 1
    let (v, s1) ← evaluate n ve f s
    evalLetBinds n ps f s1 (assocUpdate acc k v)
termination_by structural n _ _ _ _ => n

/-- Left-to-right evaluation of an argument list. -/
def evalList : Nat → List Value → Nat → State → Except Err (List Value × State)
  | 0, _, _, _ => .error .outOfFuel
  | _ + 1, [], _, s => .ok ([], s)
  | n + 1, x :: xs, f, s => do
    let (v, s1) ← evaluate n x f s
    let (vs, s2) ← evalList n xs f s1
    .ok (v :: vs, s2)
termination_by structural n _ _ _ => n

/-- `apply(func, params)`: a Closure builds one new child frame of its
captured frame, zip-binding formals to arguments, and runs its body forms
in order (empty list if the body is empty); a native procedure is invoked
directly; anything else raises `SchemeError(func)`. -/
def applyProc : Nat → Value → List Value → State → Except Err (Value × State)
  | 0, _, _, _ => .error .outOfFuel
  | n + 1, .closure forms params fid, args, s => do
    let ps ← pyIterate params
    evalSeqAcc n (.list []) forms s.frames.length (pushFrame s (mkBindings ps args) fid)
  | n + 1, .native nm, args, s => applyNative n nm args s
  | _ + 1, v, _, _ => .error (.notCallable v)
termination_by structural n _ _ _ => n

/-- The native procedures of `BUILTIN_FUNCTIONS_BY_NAME`, in table order.
Note the source binds `<` to `lambda x, y: x <= y` — the same relation as
`<=`.  A call with the wrong number of arguments raises the host's
`TypeError`. -/
def applyNative : Nat → Nat → List Value → State → Except Err (Value × State)
  | 0, _, _, _ => .error .outOfFuel
  | _ + 1, 0, [x, y], s => do
    let v ← pyAdd x y
    .ok (v, s)
  | _ + 1, 1, [x, y], s => do
    let v ← pySub x y
    .ok (v, s)
  | _ + 1, 2, [x, y], s => do
    let v ← pyMul x y
    .ok (v, s)
  | _ + 1, 3, [x, y], s => do
    let v ← pyMod x y
    .ok (v, s)
  | _ + 1, 4, [x, y], s => do
    let v ← pyDiv x y
    .ok (v, s)
  | _ + 1, 5, [x, y], s => do
    let v ← pyGtCmp x y
    .ok (v, s)
  | _ + 1, 6, [x, y], s => do
    let v ← pyGeCmp x y
    .ok (v, s)
  | _ + 1, 7, [x, y], s => do
    -- source line 301: `'<': lambda x, y: x <= y`
    let v ← pyLe x y
    .ok (v, s)
  | _ + 1, 8, [x, y], s => do
    let v ← pyLe x y
    .ok (v, s)
  | _ + 1, 9, [x, y], s => .ok (.bool (pyEq x y), s)
  | _ + 1, 10, [x, y], s => .ok (.bool (sameType x y && pyEq x y), s)
  | _ + 1, 11, [x], s => .ok (.bool (pyEq x (.list [])), s)
  | _ + 1, 12, [x], s => do
    let v ← pyIndex x 0
    .ok (v, s)
  | _ + 1, 13, [x], s => do
    let v ← pySlice1 x
    .ok (v, s)
  | _ + 1, 14, [x, y], s =>
    match y with
    | .list l => .ok (.list (x :: l), s)
    | _ => .error .typeErr
  | _ + 1, 15, [x], s => .ok (.bool (!truthy x), s)
  | _ + 1, 16, [x], s => do
    let v ← pyLen x
    .ok (v, s)
  | n + 1, 17, [fn, elems], s => do
    let es ← pyIterate elems
    let (vs, s1) ← mapLoop n fn es s
    .ok (.list vs, s1)
  | n + 1, 18, [fn, elems], s => do
    let es ← pyIterate elems
    let (vs, s1) ← filterLoop n fn es s
    .ok (.list vs, s1)
  | n + 1, 19, [fn, ps], s => do
    let ps2 ← pyIterate ps
    applyProc n fn ps2 s
  | n + 1, 20, [x], s => evaluate n x 0 s
  | _ + 1, _, _, _ => .error .typeErr
termination_by structural n _ _ _ => n

/-- `list(map(func, elems))`. -/
def mapLoop : Nat → Value → List Value → State → Except Err (List Value × State)
  | 0, _, _, _ => .error .outOfFuel
  | _ + 1, _, [], s => .ok ([], s)
  | n + 1, fn, e :: es, s => do
    let (v, s1) ← applyProc n fn [e] s
    let (vs, s2) ← mapLoop n fn es s1
    .ok (v :: vs, s2)
termination_by structural n _ _ _ => n

/-- `list(filter(func, elems))`: keep the elements on which `func` is
truthy. -/
def filterLoop : Nat → Value → List Value → State → Except Err (List Value × State)
  | 0, _, _, _ => .error .outOfFuel
  | _ + 1, _, [], s => .ok ([], s)
  | n + 1, fn, e :: es, s => do
    let (v, s1) ← applyProc n fn [e] s
    let (vs, s2) ← filterLoop n fn es s1
    if truthy v then .ok (e :: vs, s2) else .ok (vs, s2)
termination_by structural n _ _ _ => n

end

/-- The root-frame dictionary a `SchemeContext` is constructed with:
`BUILTIN_FUNCTIONS_BY_NAME` keyed by symbols, plus the `eval` binding added
to the same dictionary. -/
def initBindings : List (Value × Value) :=
  [(.sym "+", .native nAdd), (.sym "-", .native nSub), (.sym "*", .native nMul),
   (.sym "mod", .native nMod), (.sym "/", .native nDiv), (.sym ">", .native nGt),
   (.sym ">=", .native nGe), (.sym "<", .native nLt), (.sym "<=", .native nLe),
   (.sym "=", .native nNumEq), (.sym "eq?", .native nIdentEq),
   (.sym "null?", .native nIsNull), (.sym "car", .native nCar),
   (.sym "cdr", .native nCdr), (.sym "cons", .native nCons),
   (.sym "not", .native nNot), (.sym "length", .native nLen),
   (.sym "map", .native nMap), (.sym "filter", .native nFilter),
   (.sym "apply", .native nApply), (.sym "eval", .native nEval)]

/-- A fresh `SchemeContext`: one root frame, index 0.  The `eval` native
always evaluates against this root frame. -/
def initState : State := ⟨[⟨initBindings, none⟩]⟩

/-! ## Lexer -/

/-- The whitespace class of the host's regex `\s` (ASCII part; no claim
involves non-ASCII whitespace). -/
def isSpace (c : Char) : Bool :=
  c = ' ' || c = '\t' || c = '\n' || c = '\r' || c.toNat = 11 || c.toNat = 12

def isDigit (c : Char) : Bool := '0' ≤ c && c ≤ '9'

def isAlpha (c : Char) : Bool := ('a' ≤ c && c ≤ 'z') || ('A' ≤ c && c ≤ 'Z')

/-- First character class of SYMBOL: `[a-zA-Z!+=\-.<>/*]`. -/
def isSymFirst (c : Char) : Bool :=
  isAlpha c || c = '!' || c = '+' || c = '=' || c = '-' || c = '.' ||
    c = '<' || c = '>' || c = '/' || c = '*'

/-- Trailing character class of SYMBOL: `[a-zA-Z0-9?]`. -/
def isSymRest (c : Char) : Bool := isAlpha c || isDigit c || c = '?'

/-- Length of the maximal prefix run satisfying `p` (greedy `+`/`*`). -/
def takeRun (p : Char → Bool) : List Char → Nat
  | [] => 0
  | c :: cs => if p c then takeRun p cs + 1 else 0

inductive TokKind where
  | LP | RP | BOOL | NUMBER | SYMBOL | STRING | QUOTE
deriving DecidableEq

/-- A token: kind and lexeme (STRING lexemes are stored with the delimiters
already stripped, as `tokenize` emits them). -/
def Token : Type := TokKind × String

/-- `#t|#f`. -/
def matchBool : List Char → Option Nat
  | '#' :: 't' :: _ => some 2
  | '#' :: 'f' :: _ => some 2
  | _ => none

/-- `[0-9]+(\.[0-9]*)?`, greedy. -/
def matchNumber (cs : List Char) : Option Nat :=
  let d := takeRun isDigit cs
  if d = 0 then none
  else
    match cs.drop d with
    | '.' :: rest2 => some (d + 1 + takeRun isDigit rest2)
    | _ => some d

/-- `[a-zA-Z!+=\-.<>/*]+[a-zA-Z0-9?]*`, greedy. -/
def matchSymbol (cs : List Char) : Option Nat :=
  let a := takeRun isSymFirst cs
  if a = 0 then none else some (a + takeRun isSymRest (cs.drop a))

/-- Index of the last `"` in the list, if any. -/
def lastQuoteIdx (l : List Char) : Option Nat :=
  match l.reverse.findIdx? (fun c => c = '"') with
  | some j => some (l.length - 1 - j)
  | none => none

/-- `".*"`: a double quote, then greedily everything up to the LAST double
quote on the same line (`.` does not match a newline).  Returns the content
between the delimiters and the total matched length. -/
def matchStringTok : List Char → Option (String × Nat)
  | '"' :: rest =>
    let seg := rest.take (takeRun (fun c => !(c = '\n')) rest)
    match lastQuoteIdx seg with
    | some j => some (String.mk (rest.take j), j + 2)
    | none => none
  | _ => none

/-- `\s+`, greedy. -/
def matchWS (cs : List Char) : Option Nat :=
  let w := takeRun isSpace cs
  if w = 0 then none else some w

/-- One step of the host regex alternation, in `TOKEN_SPECS` order (the
first alternative to match at the current position wins).  Produces either
a token, a whitespace skip (`none`), or the REST catch-all error.  A
newline never reaches REST because WS matches it first. -/
def matchTok : List Char → Except Err (Option Token × Nat)
  | [] => .ok (none, 0)
  | c :: rest =>
    if c = '(' then .ok (some (.LP, "("), 1)
    else if c = ')' then .ok (some (.RP, ")"), 1)
    else
      match matchBool (c :: rest) with
      | some k => .ok (some (.BOOL, String.mk ((c :: rest).take k)), k)
      | none =>
        match matchNumber (c :: rest) with
        | some k => .ok (some (.NUMBER, String.mk ((c :: rest).take k)), k)
        | none =>
          match matchSymbol (c :: rest) with
          | some k => .ok (some (.SYMBOL, String.mk ((c :: rest).take k)), k)
          | none =>
            match matchStringTok (c :: rest) with
            | some (v, k) => .ok (some (.STRING, v), k)
            | none =>
              -- QUOTE is the backtick character, code point 96
              if c.toNat = 96 then .ok (some (.QUOTE, String.mk [c]), 1)
              else
                match matchWS (c :: rest) with
                | some k => .ok (none, k)
                | none => .error (.lexErr c)

/-- The `finditer` scan: repeatedly match at the current position and
advance by the match length.  Every successful alternative consumes at
least one character, so fuel `input.length` suffices. -/
def tokenizeLoop : Nat → List Char → Except Err (List Token)
  | _, [] => .ok []
  | 0, _ :: _ => .error .outOfFuel
  | n + 1, cs => do
    let (tok, k) ← matchTok cs
    let rest := cs.drop k
    match tok with
    | some t => do
      let ts ← tokenizeLoop n rest
      .ok (t :: ts)
    | none => tokenizeLoop n rest

/-- `tokenize(string)`. -/
def tokenize (s : String) : Except Err (List Token) :=
  tokenizeLoop s.length s.data

/-! ## Parser -/

def digitsToNat (cs : List Char) : Nat :=
  cs.foldl (fun a c => a * 10 + (c.toNat - 48)) 0

/-- NUMBER lexeme to value: `int` when it has no dot, else `float` (the
host parses the decimal literal; the model keeps it exact). -/
def parseNumber (lex : String) : Value :=
  if lex.data.contains '.' then
    let intPart := lex.data.takeWhile (fun c => !(c = '.'))
    let fracPart := (lex.data.dropWhile (fun c => !(c = '.'))).drop 1
    .float (mkRat (digitsToNat (intPart ++ fracPart)) (10 ^ fracPart.length))
  else .int (digitsToNat lex.data)

mutual

/-- `_parse(tokens)`: consume one form from the front of the token list.
An empty token list yields the empty-list value (consuming nothing); a
right paren (or a malformed BOOL lexeme) raises `SchemeError(head)`. -/
def parseForm : Nat → List Token → Except Err (Value × List Token)
  | 0, _ => .error .outOfFuel
  | _ + 1, [] => .ok (.list [], [])
  | n + 1, (k, lex) :: rest =>
    match k with
    | .BOOL =>
      if lex = "#t" then .ok (.bool true, rest)
      else if lex = "#f" then .ok (.bool false, rest)
      else .error (.parseErr lex)
    | .NUMBER => .ok (parseNumber lex, rest)
    | .STRING => .ok (.str lex, rest)
    | .SYMBOL => .ok (.sym lex, rest)
    | .QUOTE => do
      let (v, rest2) ← parseForm n rest
      .ok (.list [.sym "quote", v], rest2)
    | .LP => parseElems n rest []
    | .RP => .error (.parseErr lex)

/-- The LP loop: parse forms until a right paren (consumed); running out of
tokens raises `SchemeError('Missing RP')`. -/
def parseElems : Nat → List Token → List Value → Except Err (Value × List Token)
  | 0, _, _ => .error .outOfFuel
  | _ + 1, [], _ => .error (.parseErr "Missing RP")
  | n + 1, (k, lex) :: rest, acc =>
    if k = TokKind.RP then .ok (.list acc.reverse, rest)
    else do
      let (v, rest2) ← parseForm n ((k, lex) :: rest)
      parseElems n rest2 (v :: acc)

end

/-- The `parse` while-loop: read top-level forms until the tokens are
exhausted. -/
def parseForms : Nat → List Token → Except Err (List Value)
  | _, [] => .ok []
  | 0, _ :: _ => .error .outOfFuel
  | n + 1, ts => do
    let (v, rest) ← parseForm n ts
    let vs ← parseForms n rest
    .ok (v :: vs)

/-- `parse(string)`: empty/whitespace-only input is the empty-list value;
a single top-level form is returned unwrapped; two or more are wrapped in
an implicit `(progn ...)`.  (The fuel passed to the recursive descent is
generous; one unit per token plus one per nesting level is consumed.) -/
def parse (s : String) : Except Err Value :=
  if s.data.all isSpace then .ok (.list [])
  else do
    let toks ← tokenize s
    let forms ← parseForms (2 * toks.length + 4) toks
    match forms with
    | [f] => .ok f
    | fs => .ok (.list (.sym "progn" :: fs))

/-- `SchemeContext().evaluate(string)` on a fresh context. -/
def ctxEval (fuel : Nat) (src : String) : Except Err (Value × State) :=
  match parse src with
  | .error e => .error e
  | .ok v => evaluate fuel v 0 initState

/-! ## Helper lemmas -/

/-- `Frame.bind` touches only the frame it is invoked on. -/
theorem bindAt_frames_ne (s : State) (f g : Nat) (k v : Value) (hg : g ≠ f) :
    (bindAt s f k v).frames[g]? = s.frames[g]? := by
  unfold bindAt
  cases h : s.frames[f]? with
  | none => rfl
  | some fd => exact List.getElem?_set_ne (Ne.symm hg)

/-! ## Claims -/

/-- C1 counterexample.  The claim predicts `(if 0 A B)` evaluates to A
(integer 0 truthy); the evaluator branches on host truthiness, under which
0 is falsy, so `(if 0 1 2)` evaluates to 2, not 1. -/
theorem c1_counterexample :
    evaluate 5 (.list [.sym "if", .int 0, .int 1, .int 2]) 0 initState =
      .ok (.int 2, initState) ∧ Value.int 2 ≠ Value.int 1 := by
  refine ⟨rfl, fun h => ?_⟩
  injection h with h2
  exact absurd h2 (by decide)

/-- C1 amended.  The conditional special forms `if`/`cond`/`and`/`or` all
branch on the host truthiness `truthy`, whose falsy values are exactly
boolean false, the integer 0, the float 0.0, the empty string and the
empty list; every other value is truthy.  In particular `(if 0 A B)`
evaluates and returns B.  (The test argument is quoted so the equations
range over arbitrary values.) -/
theorem c1_truthiness_amended :
    (∀ v : Value, truthy v = false ↔
      (v = .bool false ∨ v = .int 0 ∨ v = .float 0 ∨ v = .str "" ∨ v = .list [])) ∧
    (∀ (n f : Nat) (v a b : Value) (s : State),
      evaluate (n + 2) (.list [.sym "if", .list [.sym "quote", v], a, b]) f s =
        if truthy v then evaluate (n + 1) a f s else evaluate (n + 1) b f s) ∧
    (∀ (n f : Nat) (v a : Value) (s : State),
      evaluate (n + 3) (.list [.sym "cond", .list [.list [.sym "quote", v], a]]) f s =
        if truthy v then evaluate (n + 1) a f s else .ok (.list [], s)) ∧
    (∀ (n f : Nat) (v : Value) (s : State),
      evaluate (n + 3) (.list [.sym "and", .list [.sym "quote", v]]) f s =
        .ok (.bool (truthy v), s)) ∧
    (∀ (n f : Nat) (v : Value) (s : State),
      evaluate (n + 3) (.list [.sym "or", .list [.sym "quote", v]]) f s =
        .ok (.bool (truthy v), s)) := by
  refine ⟨fun v => ?_, fun n f v a b s => ?_, fun n f v a s => ?_,
    fun n f v s => ?_, fun n f v s => ?_⟩
  · cases v <;> simp [truthy]
  · rfl
  · rfl
  · have h : evaluate (n + 3) (.list [.sym "and", .list [.sym "quote", v]]) f s =
        if truthy v then .ok (.bool true, s) else .ok (.bool false, s) := rfl
    rw [h]
    cases truthy v <;> rfl
  · have h : evaluate (n + 3) (.list [.sym "or", .list [.sym "quote", v]]) f s =
        if truthy v then .ok (.bool true, s) else .ok (.bool false, s) := rfl
    rw [h]
    cases truthy v <;> rfl

/-- C3.  The `set` special form evaluates its expression and then binds the
(unevaluated) first operand directly in the current frame via `Frame.bind`,
returning the empty list; `Frame.bind` never touches any other frame (in
particular no ancestor), and the binding it creates/overwrites is found in
the current frame's own dictionary afterwards. -/
theorem c3_set_binds_current :
    (∀ (n f : Nat) (key e : Value) (s : State),
      evaluate (n + 1) (.list [.sym "set", key, e]) f s =
        (evaluate n e f s).bind (fun p => .ok (.list [], bindAt p.2 f key p.1))) ∧
    (∀ (s : State) (f g : Nat) (k v : Value), g ≠ f →
      (bindAt s f k v).frames[g]? = s.frames[g]?) ∧
    (∀ (b : List (Value × Value)) (y : String) (v : Value),
      assocFind (assocUpdate b (.sym y) v) (.sym y) = some v) := by
  refine ⟨fun n f key e s => ?_, fun s f g k v hg => bindAt_frames_ne s f g k v hg,
    fun b y v => ?_⟩
  · rfl
  · induction b with
    | nil => simp [assocUpdate, assocFind, pyEq]
    | cons hd tl ih =>
      by_cases h : pyEq (.sym y) hd.1 = true
      · simp [assocUpdate, assocFind, h]
      · simp only [Bool.not_eq_true] at h
        simp [assocUpdate, assocFind, h, ih]

/-- C3 witness: the locality clause applied at a concrete state (note
frame 1 does not even exist in `initState`, so both sides are `none`). -/
theorem c3_set_binds_current_witness :
    (bindAt initState 0 (.sym "x") (.int 7)).frames[1]? = initState.frames[1]? :=
  c3_set_binds_current.2.1 initState 0 1 (.sym "x") (.int 7) (by decide)

/-- C5.  `parse` of empty or all-whitespace input returns the empty-list
value; a single top-level form is returned unwrapped; two or more forms
are wrapped in an implicit `(progn ...)`; and concretely `parse "1 2"`
equals `[Symbol progn, 1, 2]`, whose evaluation in any frame yields 2. -/
theorem c5_parse_toplevel :
    parse "" = .ok (.list []) ∧
    parse " \n\t " = .ok (.list []) ∧
    parse "1 2" = .ok (.list [.sym "progn", .int 1, .int 2]) ∧
    (∀ (n f : Nat) (s : State),
      evaluate (n + 4) (.list [.sym "progn", .int 1, .int 2]) f s = .ok (.int 2, s)) ∧
    (∀ (src : String) (toks : List Token) (v : Value),
      src.data.all isSpace = false → tokenize src = .ok toks →
      parseForms (2 * toks.length + 4) toks = .ok [v] →
      parse src = .ok v) ∧
    (∀ (src : String) (toks : List Token) (v1 v2 : Value) (vs : List Value),
      src.data.all isSpace = false → tokenize src = .ok toks →
      parseForms (2 * toks.length + 4) toks = .ok (v1 :: v2 :: vs) →
      parse src = .ok (.list (.sym "progn" :: v1 :: v2 :: vs))) := by
  refine ⟨rfl, rfl, rfl, fun n f s => rfl, ?_, ?_⟩
  · intro src toks v h1 h2 h3
    simp [parse, h1, h2, h3, bind, Except.bind]
  · intro src toks v1 v2 vs h1 h2 h3
    simp [parse, h1, h2, h3, bind, Except.bind]

/-- C5 witness: the single-form clause applied at the concrete input
`"1"`. -/
theorem c5_parse_toplevel_witness : parse "1" = .ok (.int 1) :=
  c5_parse_toplevel.2.2.2.2.1 "1" [(.NUMBER, "1")] (.int 1) rfl rfl rfl

/-- C6.  The application protocol for a Closure: exactly one new frame is
appended, a child of the closure's captured frame, whose dictionary zips
formals with arguments positionally (extra arguments dropped, missing
arguments leaving formals unbound), and the body forms run in order in
that frame with the empty list as result of an empty body; applying a
non-callable value (e.g. the integer 123) raises `SchemeError`
(`notCallable`). -/
theorem c6_apply_protocol :
    (∀ (n fid : Nat) (forms ps args : List Value) (s : State),
      applyProc (n + 1) (.closure forms (.list ps) fid) args s =
        evalSeqAcc n (.list []) forms s.frames.length
          (pushFrame s (mkBindings ps args) fid)) ∧
    (∀ (s : State) (b : List (Value × Value)) (p : Nat),
      (pushFrame s b p).frames = s.frames ++ [⟨b, some p⟩]) ∧
    (∀ args : List Value, mkBindings [] args = []) ∧
    (∀ (p : Value) (ps : List Value), mkBindings (p :: ps) [] = []) ∧
    (∀ (n f : Nat) (s : State), evalSeqAcc (n + 1) (.list []) [] f s = .ok (.list [], s)) ∧
    (∀ (n : Nat) (s : State),
      applyProc (n + 1) (.int 123) [] s = .error (.notCallable (.int 123))) :=
  ⟨fun _ _ _ _ _ _ => rfl, fun _ _ _ => rfl, fun _ => rfl, fun _ _ => rfl,
   fun _ _ _ => rfl, fun _ _ => rfl⟩

/-- C2.  The root frame binds `<` to a native that, contrary to the claim,
is NOT strict less-than: the source implements it as `x <= y`, so `(< 2 2)`
evaluates to true, and the `<` native computes the very same relation as
the `<=` native on every argument list.  This exhibits the code bug behind
the claim (the claim and the conventional meaning of `<` demand `(< 2 2)`
to be false). -/
theorem c2_lt_is_le :
    ctxEval 50 "(< 2 2)" = .ok (.bool true, initState) ∧
    ctxEval 50 "(<= 2 2)" = .ok (.bool true, initState) ∧
    ∀ (n : Nat) (args : List Value) (s : State),
      applyNative (n + 1) nLt args s = applyNative (n + 1) nLe args s := by
  refine ⟨rfl, rfl, fun n args s => ?_⟩
  match args with
  | [] => rfl
  | [_] => rfl
  | [_, _] => rfl
  | _ :: _ :: _ :: _ => rfl

/-- C4 counterexample.  The claim asserts that `cdr` applied to the empty
sequence fails; in fact the host slice `x[1:]` of an empty sequence is the
empty sequence, so `(cdr ())` returns the empty-list value and raises
nothing. -/
theorem c4_counterexample :
    ctxEval 50 "(cdr ())" = .ok (.list [], initState) ∧
    ∀ e : Err, ctxEval 50 "(cdr ())" ≠ .error e := by
  refine ⟨rfl, fun e h => ?_⟩
  rw [show ctxEval 50 "(cdr ())" = .ok (.list [], initState) from rfl] at h
  exact Except.noConfusion h

/-- C4 amended.  `car` on the empty sequence fails with the host's
out-of-bounds `IndexError`, but `cdr` on the empty sequence does not fail:
it returns the empty sequence (host slice semantics).  Stated both through
the full pipeline and for the natives applied to the empty sequence in any
state. -/
theorem c4_car_cdr_empty_amended :
    ctxEval 50 "(car ())" = .error .indexErr ∧
    ctxEval 50 "(cdr ())" = .ok (.list [], initState) ∧
    (∀ (n : Nat) (s : State), applyNative (n + 1) nCar [.list []] s = .error .indexErr) ∧
    (∀ (n : Nat) (s : State), applyNative (n + 1) nCdr [.list []] s = .ok (.list [], s)) :=
  ⟨rfl, rfl, fun _ _ => rfl, fun _ _ => rfl⟩

/-- C7.  Round-trip of quoted data: parsing `(quote (1 2 3))` yields the
two-element quote form, and evaluating that form in ANY frame of ANY state
returns the literal sequence `[1, 2, 3]` with the state untouched — the
`quote` special form returns its argument exactly as the parser produced
it, evaluating nothing. -/
theorem c7_quote_roundtrip :
    parse "(quote (1 2 3))" =
      .ok (.list [.sym "quote", .list [.int 1, .int 2, .int 3]]) ∧
    ∀ (n f : Nat) (s : State),
      evaluate (n + 1) (.list [.sym "quote", .list [.int 1, .int 2, .int 3]]) f s =
        .ok (.list [.int 1, .int 2, .int 3], s) :=
  ⟨rfl, fun _ _ _ => rfl⟩

/-- C8.  The two equality natives differ exactly as claimed: `=` is the
host's numeric-unifying `==` (so `(= 2 2.0)` is true), while `eq?` first
requires the same runtime variant and then `==`-equality (so
`(eq? 2 2.0)` is false).  The last two conjuncts state the two natives'
behaviour on arbitrary argument pairs. -/
theorem c8_equality_natives :
    ctxEval 50 "(= 2 2.0)" = .ok (.bool true, initState) ∧
    ctxEval 50 "(eq? 2 2.0)" = .ok (.bool false, initState) ∧
    (∀ (n : Nat) (x y : Value) (s : State),
      applyNative (n + 1) nNumEq [x, y] s = .ok (.bool (pyEq x y), s)) ∧
    (∀ (n : Nat) (x y : Value) (s : State),
      applyNative (n + 1) nIdentEq [x, y] s =
        .ok (.bool (sameType x y && pyEq x y), s)) :=
  ⟨by with_unfolding_all rfl, by with_unfolding_all rfl,
   fun _ _ _ _ => rfl, fun _ _ _ _ => rfl⟩

/-! ### Frame.set analysis (C9) -/

/-- Fuel irrelevance for `lookupAux`: any fuel strictly above the frame
index computes the same answer (parent indices strictly decrease along the
guarded chain). -/
theorem lookupAux_mono (s : State) :
    ∀ (n m f : Nat) (key : Value), f < n → f < m →
      lookupAux s n f key = lookupAux s m f key := by
  intro n
  induction n with
  | zero => intro m f key hn _; exact absurd hn (Nat.not_lt_zero f)
  | succ n ih =>
    intro m f key hn hm
    match m, hm with
    | m + 1, hm =>
      simp only [lookupAux]
      cases hf : s.frames[f]? with
      | none => rfl
      | some fd =>
        dsimp only
        cases ha : assocFind fd.bindings key with
        | some w => rfl
        | none =>
          dsimp only
          cases hp : fd.parent with
          | none => rfl
          | some p =>
            dsimp only
            by_cases hpf : p < f
            · simp only [if_pos hpf]
              exact ih m p key (by omega) (by omega)
            · simp only [if_neg hpf]

/-- Fuel irrelevance for `findFrameAux`. -/
theorem findFrameAux_mono (s : State) :
    ∀ (n m f : Nat) (key : Value), f < n → f < m →
      findFrameAux s n f key = findFrameAux s m f key := by
  intro n
  induction n with
  | zero => intro m f key hn _; exact absurd hn (Nat.not_lt_zero f)
  | succ n ih =>
    intro m f key hn hm
    match m, hm with
    | m + 1, hm =>
      simp only [findFrameAux]
      cases hf : s.frames[f]? with
      | none => rfl
      | some fd =>
        dsimp only
        cases ha : assocFind fd.bindings key with
        | some w => rfl
        | none =>
          simp only [Option.isSome_none, Bool.false_eq_true, if_false]
          cases hp : fd.parent with
          | none => rfl
          | some p =>
            dsimp only
            by_cases hpf : p < f
            · simp only [if_pos hpf]
              exact ih m p key (by omega) (by omega)
            · simp only [if_neg hpf]

/-- Fuel irrelevance for `frameSetAux`. -/
theorem frameSetAux_mono (s : State) :
    ∀ (n m f : Nat) (key v : Value), f < n → f < m →
      frameSetAux s n f key v = frameSetAux s m f key v := by
  intro n
  induction n with
  | zero => intro m f key v hn _; exact absurd hn (Nat.not_lt_zero f)
  | succ n ih =>
    intro m f key v hn hm
    match m, hm with
    | m + 1, hm =>
      simp only [frameSetAux]
      cases hf : s.frames[f]? with
      | none => rfl
      | some fd =>
        dsimp only
        cases ha : assocFind fd.bindings key with
        | some w => rfl
        | none =>
          simp only [Option.isSome_none, Bool.false_eq_true, if_false]
          cases hp : fd.parent with
          | none => rfl
          | some p =>
            dsimp only
            by_cases hpf : p < f
            · simp only [if_pos hpf]
              cases hl : lookupF s p key with
              | none => rfl
              | some w =>
                dsimp only
                cases htr : truthy w with
                | false => rfl
                | true =>
                  simp only [if_pos rfl]
                  exact ih m p key v (by omega) (by omega)
            · simp only [if_neg hpf]

/-- Stepping `findFrame` to the parent when the key is unbound in the
current frame. -/
theorem findFrame_step (s : State) (f p : Nat) (key : Value) (fd : FrameData)
    (hf : s.frames[f]? = some fd) (ha : assocFind fd.bindings key = none)
    (hp : fd.parent = some p) (hpf : p < f) :
    findFrame s f key = findFrame s p key := by
  unfold findFrame
  simp only [findFrameAux, hf, ha, hp, Option.isSome_none, Bool.false_eq_true,
    if_false, if_pos hpf]
  exact findFrameAux_mono s f (p + 1) p key hpf (Nat.lt_succ_self p)

/-- Stepping `lookupF` to the parent when the key is unbound in the current
frame. -/
theorem lookupF_step (s : State) (f p : Nat) (key : Value) (fd : FrameData)
    (hf : s.frames[f]? = some fd) (ha : assocFind fd.bindings key = none)
    (hp : fd.parent = some p) (hpf : p < f) :
    lookupF s f key = lookupF s p key := by
  unfold lookupF
  simp only [lookupAux, hf, ha, hp, if_pos hpf]
  exact lookupAux_mono s f (p + 1) p key hpf (Nat.lt_succ_self p)

/-- When the key is bound in the current frame, `findFrame` stops here and
`lookupF` returns this frame's binding. -/
theorem findFrame_here (s : State) (f : Nat) (key w : Value) (fd : FrameData)
    (hf : s.frames[f]? = some fd) (ha : assocFind fd.bindings key = some w) :
    findFrame s f key = some f ∧ lookupF s f key = some w := by
  constructor
  · unfold findFrame
    simp [findFrameAux, hf, ha]
  · unfold lookupF
    simp [lookupAux, hf, ha]

/-- The heart of the C9 analysis: when the nearest binding of `key` at or
above `f` (frame `g`) holds a truthy value, `Frame.set` walks up to `g` and
overwrites exactly there. -/
theorem frameSet_to_find (s : State) :
    ∀ (f : Nat) (key v : Value) (g : Nat) (w : Value),
      findFrame s f key = some g → lookupF s f key = some w → truthy w = true →
      frameSetM s f key v = bindAt s g key v := by
  intro f
  induction f using Nat.strong_induction_on with
  | _ f ih =>
    intro key v g w hfind hlook htr
    unfold frameSetM
    simp only [frameSetAux]
    cases hf : s.frames[f]? with
    | none =>
      unfold findFrame at hfind
      simp [findFrameAux, hf] at hfind
    | some fd =>
      cases ha : assocFind fd.bindings key with
      | some w2 =>
        have hh := findFrame_here s f key w2 fd hf ha
        rw [hh.1] at hfind
        injection hfind with hg
        simp only [ha, Option.isSome_some, if_pos]
        rw [hg]
      | none =>
        simp only [ha, Option.isSome_none, Bool.false_eq_true, if_false]
        cases hp : fd.parent with
        | none =>
          unfold findFrame at hfind
          simp [findFrameAux, hf, ha, hp] at hfind
        | some p =>
          by_cases hpf : p < f
          · simp only [if_pos hpf]
            have hfind2 : findFrame s p key = some g := by
              rw [← findFrame_step s f p key fd hf ha hp hpf]; exact hfind
            have hlook2 : lookupF s p key = some w := by
              rw [← lookupF_step s f p key fd hf ha hp hpf]; exact hlook
            rw [hlook2]
            simp only [htr, if_pos]
            calc frameSetAux s f p key v
                = frameSetAux s (p + 1) p key v :=
                  frameSetAux_mono s f (p + 1) p key v hpf (Nat.lt_succ_self p)
              _ = bindAt s g key v := ih p hpf key v g w hfind2 hlook2 htr
          · unfold findFrame at hfind
            simp [findFrameAux, hf, ha, hp, hpf] at hfind

/-- The three-frame chain refuting C9: the grandparent (frame 0) binds `x`
to the truthy 5, the parent (frame 1) shadows it with the falsy 0, the
child (frame 2) leaves `x` unbound. -/
def st9 : State :=
  ⟨[⟨[(.sym "x", .int 5)], none⟩, ⟨[(.sym "x", .int 0)], some 0⟩, ⟨[], some 1⟩]⟩

/-- C9 counterexample.  `x` is bound in an ancestor (frame 0) to the truthy
value 5, so the claim predicts `Frame.set` on the child updates that
nearest-truthy-ancestor binding; in fact `Frame.set` tests only the chain
lookup from the parent, which finds the nearer falsy 0 in frame 1, so it
binds locally: frame 0 keeps `x = 5` untouched and the child gains its own
`x = 99` binding. -/
theorem c9_counterexample :
    (frameSetM st9 2 (.sym "x") (.int 99)).frames[0]? =
      some ⟨[(.sym "x", .int 5)], none⟩ ∧
    (frameSetM st9 2 (.sym "x") (.int 99)).frames[2]? =
      some ⟨[(.sym "x", .int 99)], some 1⟩ :=
  ⟨rfl, rfl⟩

/-- C9 amended.  `Frame.set` overwrites in the current frame when the
symbol is bound there; otherwise it consults the parent-chain lookup — the
value of the NEAREST enclosing binding: if that nearest binding is truthy,
the nearest binding (frame `g = findFrame`) is overwritten; if the chain
lookup is unbound or finds a falsy nearest value — even when some farther
ancestor holds a truthy binding — a new binding is created in the current
frame; and `Frame.bind` leaves every other frame unchanged. -/
theorem c9_frame_set_amended :
    (∀ (s : State) (f : Nat) (key v : Value) (fd : FrameData),
      s.frames[f]? = some fd → (assocFind fd.bindings key).isSome = true →
      frameSetM s f key v = bindAt s f key v) ∧
    (∀ (s : State) (f : Nat) (key v : Value) (fd : FrameData),
      s.frames[f]? = some fd → assocFind fd.bindings key = none →
      fd.parent = none → frameSetM s f key v = bindAt s f key v) ∧
    (∀ (s : State) (f p : Nat) (key v : Value) (fd : FrameData),
      s.frames[f]? = some fd → assocFind fd.bindings key = none →
      fd.parent = some p → p < f → lookupF s p key = none →
      frameSetM s f key v = bindAt s f key v) ∧
    (∀ (s : State) (f p : Nat) (key v w : Value) (fd : FrameData),
      s.frames[f]? = some fd → assocFind fd.bindings key = none →
      fd.parent = some p → p < f → lookupF s p key = some w → truthy w = false →
      frameSetM s f key v = bindAt s f key v) ∧
    (∀ (s : State) (f p g : Nat) (key v w : Value) (fd : FrameData),
      s.frames[f]? = some fd → assocFind fd.bindings key = none →
      fd.parent = some p → p < f → findFrame s p key = some g →
      lookupF s p key = some w → truthy w = true →
      frameSetM s f key v = bindAt s g key v) ∧
    (∀ (s : State) (f g : Nat) (k v : Value), g ≠ f →
      (bindAt s f k v).frames[g]? = s.frames[g]?) := by
  refine ⟨?_, ?_, ?_, ?_, ?_, fun s f g k v hg => bindAt_frames_ne s f g k v hg⟩
  · intro s f key v fd hf ha
    unfold frameSetM
    simp only [frameSetAux, hf, ha, if_pos]
  · intro s f key v fd hf ha hp
    unfold frameSetM
    simp [frameSetAux, hf, ha, hp]
  · intro s f p key v fd hf ha hp hpf hl
    unfold frameSetM
    simp [frameSetAux, hf, ha, hp, hpf, hl]
  · intro s f p key v w fd hf ha hp hpf hl htr
    unfold frameSetM
    simp [frameSetAux, hf, ha, hp, hpf, hl, htr]
  · intro s f p g key v w fd hf ha hp hpf hfind hlook htr
    have hfind2 : findFrame s f key = some g := by
      rw [findFrame_step s f p key fd hf ha hp hpf]; exact hfind
    have hlook2 : lookupF s f key = some w := by
      rw [lookupF_step s f p key fd hf ha hp hpf]; exact hlook
    exact frameSet_to_find s f key v g w hfind2 hlook2 htr

/-- C9 witness: the falsy-nearest-binding clause applied on the concrete
chain `st9` — the parent's lookup of `x` finds the falsy 0, so the child
binds locally. -/
theorem c9_frame_set_amended_witness :
    frameSetM st9 2 (.sym "x") (.int 99) = bindAt st9 2 (.sym "x") (.int 99) :=
  c9_frame_set_amended.2.2.2.1 st9 2 1 (.sym "x") (.int 99) (.int 0) ⟨[], some 1⟩
    rfl rfl rfl (by decide) rfl rfl

/-! ### Tokenizer analysis (C10) -/

/-- A greedy run over a list all of whose elements satisfy the predicate
spans the whole list. -/
theorem takeRun_all (p : Char → Bool) :
    ∀ l : List Char, (∀ c ∈ l, p c = true) → takeRun p l = l.length := by
  intro l h
  induction l with
  | nil => rfl
  | cons c cs ih =>
    have hc : p c = true := h c (List.mem_cons_self c cs)
    simp only [takeRun, hc, if_true, List.length_cons, Nat.add_right_cancel_iff]
    exact ih fun d hd => h d (List.mem_cons_of_mem c hd)

/-- The last double quote of `inner ++ ['"']` is its final character. -/
theorem lastQuoteIdx_append (inner : List Char) :
    lastQuoteIdx (inner ++ ['"']) = some inner.length := by
  unfold lastQuoteIdx
  rw [List.reverse_append]
  simp [List.findIdx?_cons]

/-- The STRING alternative on `"` + inner + `"` (no newline in `inner`)
matches the whole text greedily up to the LAST quote — here the final
character — and yields the content with the delimiters stripped. -/
theorem matchStringTok_spec (inner : List Char) (hni : '\n' ∉ inner) :
    matchStringTok ('"' :: (inner ++ ['"'])) =
      some (String.mk inner, inner.length + 2) := by
  have hall : ∀ c ∈ inner ++ ['"'], (!(c = '\n')) = true := by
    intro c hc
    rcases List.mem_append.mp hc with h | h
    · simp only [Bool.not_eq_eq_eq_not, Bool.not_true, decide_eq_false_iff_not]
      exact fun e => hni (e ▸ h)
    · simp only [List.mem_singleton] at h
      subst h
      decide
  simp only [matchStringTok]
  rw [takeRun_all _ _ hall, List.take_length, lastQuoteIdx_append]
  simp [List.take_left]

/-- The full alternation at a `"`: LP/RP/BOOLEAN/NUMBER/SYMBOL cannot match
a double quote, so STRING wins. -/
theorem matchTok_string (inner : List Char) (hni : '\n' ∉ inner) :
    matchTok ('"' :: (inner ++ ['"'])) =
      .ok (some (.STRING, String.mk inner), inner.length + 2) := by
  have h1 : matchBool ('"' :: (inner ++ ['"'])) = none := rfl
  have h2 : matchNumber ('"' :: (inner ++ ['"'])) = none := rfl
  have h3 : matchSymbol ('"' :: (inner ++ ['"'])) = none := rfl
  simp [matchTok, h1, h2, h3, matchStringTok_spec inner hni]

/-- One scan step consumes the whole single-STRING input. -/
theorem tokenizeLoop_string (inner : List Char) (hni : '\n' ∉ inner) :
    tokenizeLoop (inner.length + 2) ('"' :: (inner ++ ['"'])) =
      .ok [(.STRING, String.mk inner)] := by
  show tokenizeLoop (inner.length + 1 + 1) ('"' :: (inner ++ ['"'])) = _
  simp only [tokenizeLoop]
  rw [matchTok_string inner hni]
  have hdrop : ('"' :: (inner ++ ['"'])).drop (inner.length + 2) = [] := by
    apply List.drop_eq_nil_of_le
    simp
  simp [bind, Except.bind, hdrop, tokenizeLoop]

/-- C10.  String tokenization is greedy to the last double quote: on an
input consisting of two string literals with non-newline text between
them, the lexer emits ONE `STRING` token whose value spans from just after
the first quote to just before the last quote — so `tokenize` on
`"a" "b"` yields the single token `(STRING, a" "b)`, not two tokens. -/
theorem c10_greedy_string_token :
    tokenize "\"a\" \"b\"" = .ok [(.STRING, "a\" \"b")] ∧
    ∀ (s1 m s2 : List Char), '\n' ∉ s1 → '\n' ∉ m → '\n' ∉ s2 →
      tokenizeLoop (s1.length + m.length + s2.length + 4)
          ('"' :: (s1 ++ ['"'] ++ m ++ ['"'] ++ s2 ++ ['"'])) =
        .ok [(.STRING, String.mk (s1 ++ ['"'] ++ m ++ ['"'] ++ s2))] := by
  refine ⟨rfl, fun s1 m s2 h1 h2 h3 => ?_⟩
  have hmem : '\n' ∉ s1 ++ ['"'] ++ m ++ ['"'] ++ s2 := by
    simp only [List.mem_append, List.mem_singleton, not_or]
    refine ⟨⟨⟨⟨h1, by decide⟩, h2⟩, by decide⟩, h3⟩
  have key := tokenizeLoop_string (s1 ++ ['"'] ++ m ++ ['"'] ++ s2) hmem
  have hfuel : (s1 ++ ['"'] ++ m ++ ['"'] ++ s2).length + 2 =
      s1.length + m.length + s2.length + 4 := by
    simp [List.length_append]
    omega
  rw [hfuel] at key
  exact key

/-- C10 witness: the general clause applied at the concrete fragments of
the input `"a" "b"`. -/
theorem c10_greedy_string_token_witness :
    tokenizeLoop (1 + 1 + 1 + 4) ('"' :: (['a'] ++ ['"'] ++ [' '] ++ ['"'] ++ ['b'] ++ ['"'])) =
      .ok [(.STRING, String.mk (['a'] ++ ['"'] ++ [' '] ++ ['"'] ++ ['b']))] :=
  c10_greedy_string_token.2 ['a'] [' '] ['b'] (by decide) (by decide) (by decide)

end SillyScheme
